import Mathlib

/-!
Verification of the ingestion state-and-resume engine of the
football_stat_ingestion repository: a shallow embedding of
`src/ingestion/state_manager.py`, `src/ingestion/rate_limiter.py`,
`src/ingestion/api_client.py`, `src/ingestion/data_manager.py` and the
collectors, together with theorems settling the frozen claims about them.

Python dicts holding JSON documents are modelled as association lists of
string keys to a small JSON-value type; the persisted state file is
modelled as an explicit `disk` component written by `save`.
-/

/-- A JSON scalar value as stored in an entity document: the repository only
ever reads string fields (names, `status`) and integer fields (`id`) from
the opaque documents it stores. -/
inductive JVal where
  | str (v : String)
  | int (v : Int)
  deriving Repr, DecidableEq

/-- An entity document (a Python dict from the API), as an association list.
An empty document is falsy in Python (`if not match: ...`). -/
abbrev Doc := List (String × JVal)

/-- Read a field of a document, as Python's `d.get(k)`. -/
def lookupField (d : Doc) (k : String) : Option JVal :=
  (d.find? (fun p => p.1 == k)).map (fun p => p.2)

/-- Write a field of a document, as Python's `d[k] = v` (replace the existing
binding, or append a new one). -/
def setField (d : Doc) (k : String) (v : JVal) : Doc :=
  if d.any (fun p => p.1 == k) then
    d.map (fun p => if p.1 == k then (p.1, v) else p)
  else
    d ++ [(k, v)]

/-- Association-list lookup used for the keyed JSON-file stores. -/
def storeGet {κ α : Type} [BEq κ] (s : List (κ × α)) (k : κ) : Option α :=
  (s.find? (fun p => p.1 == k)).map (fun p => p.2)

/-- Association-list overwrite used for the keyed JSON-file stores:
re-saving an existing key overwrites its file. -/
def storeSet {κ α : Type} [BEq κ] (s : List (κ × α)) (k : κ) (v : α) : List (κ × α) :=
  if s.any (fun p => p.1 == k) then
    s.map (fun p => if p.1 == k then (k, v) else p)
  else
    s ++ [(k, v)]

/-- Python's `sorted(list(set(old).union(ids)))`: the sorted, duplicate-free
union of two ID lists, as performed by
`IngestionState.update_collection_progress` (state_manager.py lines 144-161). -/
def mergeIds (old ids : List Int) : List Int :=
  List.insertionSort (fun a b => a ≤ b) (old ++ ids).dedup

theorem mem_mergeIds (old ids : List Int) (x : Int) :
    x ∈ mergeIds old ids ↔ x ∈ old ∨ x ∈ ids := by
  unfold mergeIds
  rw [(List.perm_insertionSort _ _).mem_iff, List.mem_dedup, List.mem_append]

theorem mergeIds_sorted (old ids : List Int) :
    (mergeIds old ids).Sorted (fun a b => a ≤ b) :=
  List.sorted_insertionSort _ _

theorem mergeIds_nodup (old ids : List Int) : (mergeIds old ids).Nodup :=
  ((List.perm_insertionSort _ _).nodup_iff).mpr ((old ++ ids).nodup_dedup)

/-- A sorted duplicate-free list of integers is determined by its members. -/
theorem sorted_nodup_ext {l₁ l₂ : List Int}
    (s₁ : l₁.Sorted (fun a b => a ≤ b)) (d₁ : l₁.Nodup)
    (s₂ : l₂.Sorted (fun a b => a ≤ b)) (d₂ : l₂.Nodup)
    (h : ∀ x, x ∈ l₁ ↔ x ∈ l₂) : l₁ = l₂ :=
  List.eq_of_perm_of_sorted ((List.perm_ext_iff_of_nodup d₁ d₂).mpr h) s₁ s₂

theorem mergeIds_idem (old ids : List Int) :
    mergeIds (mergeIds old ids) ids = mergeIds old ids := by
  refine sorted_nodup_ext (mergeIds_sorted _ _) (mergeIds_nodup _ _)
    (mergeIds_sorted _ _) (mergeIds_nodup _ _) (fun x => ?_)
  simp only [mem_mergeIds]
  tauto

/-- Ledger entry for one collection stage, mirroring the per-stage dicts of
`IngestionState._create_initial_state` (state_manager.py lines 49-107).
`update_collection_progress` dispatches on which of the four `*_ids` keys is
present in the dict, so each is an `Option`; stages such as `league_stats`
track none of them. -/
structure CollState where
  status : String
  total : Nat := 0
  fetched : Nat := 0
  team_ids : Option (List Int) := none
  match_ids : Option (List Int) := none
  player_ids : Option (List Int) := none
  referee_ids : Option (List Int) := none
  api_calls : Nat := 0
  last_updated : Option String := none
  deriving Repr, DecidableEq

/-- The whichever-is-present ID list of a ledger entry, in the same key order
(`team_ids`, `match_ids`, `player_ids`, `referee_ids`) that
`update_collection_progress` uses for its merge dispatch. -/
def CollState.trackedIds (cs : CollState) : Option (List Int) :=
  match cs.team_ids with
  | some l => some l
  | none =>
    match cs.match_ids with
    | some l => some l
    | none =>
      match cs.player_ids with
      | some l => some l
      | none => cs.referee_ids

/-- The in-memory ingestion-state document (`IngestionState.state`). -/
structure IngestionStateData where
  status : String := "not_started"
  last_updated : String := ""
  collections : List (String × CollState)
  total_api_calls : Nat := 0
  deriving Repr, DecidableEq

/-- Lookup in the `collections` dict, as `self.state['collections'][c]`
guarded by `c in self.state['collections']`. -/
def findColl : List (String × CollState) → String → Option CollState
  | [], _ => none
  | p :: t, c => if p.1 == c then some p.2 else findColl t c

/-- Replace the entry of an existing stage key. -/
def setCollList (l : List (String × CollState)) (c : String) (cs : CollState) :
    List (String × CollState) :=
  l.map (fun p => if p.1 == c then (p.1, cs) else p)

def lookupColl (m : IngestionStateData) (c : String) : Option CollState :=
  findColl m.collections c

def setColl (m : IngestionStateData) (c : String) (cs : CollState) : IngestionStateData :=
  { m with collections := setCollList m.collections c cs }

/-- The in-memory state together with the persisted state file
(`self.state_file`); `save` copies memory to disk. -/
structure StateWorld where
  mem : IngestionStateData
  disk : Option IngestionStateData := none
  deriving Repr, DecidableEq

/-- `IngestionState.save` (state_manager.py lines 112-119): stamp
`last_updated` and write the whole document to the state file. -/
def IngestionState.save (w : StateWorld) (now : String) : StateWorld :=
  let m := { w.mem with last_updated := now }
  { mem := m, disk := some m }

/-- `IngestionState.mark_collection_complete` (lines 121-126). -/
def IngestionState.mark_collection_complete (w : StateWorld) (now : String)
    (collection : String) : StateWorld :=
  match lookupColl w.mem collection with
  | none => w
  | some cs =>
      let cs2 := { cs with status := "complete", last_updated := some now }
      IngestionState.save { w with mem := setColl w.mem collection cs2 } now

/-- `IngestionState.mark_collection_in_progress` (lines 128-132). -/
def IngestionState.mark_collection_in_progress (w : StateWorld) (now : String)
    (collection : String) : StateWorld :=
  match lookupColl w.mem collection with
  | none => w
  | some cs =>
      let cs2 := { cs with status := "in_progress" }
      IngestionState.save { w with mem := setColl w.mem collection cs2 } now

/-- The `ids is not None` merge branch of `update_collection_progress`
(lines 144-161): the first present `*_ids` key receives the sorted
duplicate-free union of its old list with the passed ids. -/
def CollState.merge_ids_field (cs : CollState) (l : List Int) : CollState :=
  match cs.team_ids with
  | some old => { cs with team_ids := some (mergeIds old l) }
  | none =>
    match cs.match_ids with
    | some old => { cs with match_ids := some (mergeIds old l) }
    | none =>
      match cs.player_ids with
      | some old => { cs with player_ids := some (mergeIds old l) }
      | none =>
        match cs.referee_ids with
        | some old => { cs with referee_ids := some (mergeIds old l) }
        | none => cs

/-- The successive updates that `update_collection_progress` applies to the
stage's own entry: set `fetched`, optionally set `total`, merge `ids` into
the present `*_ids` key, and accumulate `api_calls` when positive. -/
def CollState.apply_progress (cs0 : CollState) (fetched : Nat) (total : Option Nat)
    (ids : Option (List Int)) (api_calls : Nat) : CollState :=
  let cs1 := { cs0 with fetched := fetched }
  let cs2 := match total with
    | none => cs1
    | some t => { cs1 with total := t }
  let cs3 := match ids with
    | none => cs2
    | some l => cs2.merge_ids_field l
  if 0 < api_calls then { cs3 with api_calls := cs3.api_calls + api_calls } else cs3

/-- The `total_api_calls` accumulation of `update_collection_progress`
(lines 163-165), applied only when `api_calls > 0`. -/
def IngestionStateData.add_total_api_calls (m : IngestionStateData) (api_calls : Nat) :
    IngestionStateData :=
  if 0 < api_calls then { m with total_api_calls := m.total_api_calls + api_calls } else m

/-- `IngestionState.update_collection_progress` (lines 134-167). -/
def IngestionState.update_collection_progress (w : StateWorld) (now : String)
    (collection : String) (fetched : Nat) (total : Option Nat)
    (ids : Option (List Int)) (api_calls : Nat) : StateWorld :=
  match lookupColl w.mem collection with
  | none => w
  | some cs0 =>
      let m1 := setColl w.mem collection (cs0.apply_progress fetched total ids api_calls)
      IngestionState.save { w with mem := m1.add_total_api_calls api_calls } now

/-- `IngestionState.is_collection_complete` (lines 185-189). -/
def IngestionState.is_collection_complete (m : IngestionStateData) (collection : String) : Bool :=
  match lookupColl m collection with
  | none => false
  | some cs => cs.status == "complete"

/-- `IngestionState.get_overall_status` (lines 191-218). -/
def IngestionState.get_overall_status (m : IngestionStateData) : String :=
  let all_complete := m.collections.all (fun p => p.2.status == "complete")
  if all_complete then "complete"
  else
    let any_started := m.collections.any
      (fun p => p.2.status == "in_progress" || p.2.status == "complete")
    if any_started then "in_progress" else "not_started"


theorem findColl_setCollList (l : List (String × CollState)) (c : String)
    (cs x : CollState) (h : findColl l c = some cs) :
    findColl (setCollList l c x) c = some x := by
  induction l with
  | nil => simp [findColl] at h
  | cons p t ih =>
    by_cases hp : (p.1 == c) = true
    · simp [findColl, setCollList, hp]
    · have := ih (by simpa [findColl, hp] using h)
      simpa [findColl, setCollList, hp] using this

theorem trackedIds_merge_ids_field (cs : CollState) (l old : List Int)
    (h : cs.trackedIds = some old) :
    (cs.merge_ids_field l).trackedIds = some (mergeIds old l) := by
  rcases hteam : cs.team_ids with _ | lt
  · rcases hmatch : cs.match_ids with _ | lm
    · rcases hplayer : cs.player_ids with _ | lp
      · rcases href : cs.referee_ids with _ | lr
        · rw [CollState.trackedIds, hteam, hmatch, hplayer, href] at h
          exact absurd h (by simp)
        · rw [CollState.trackedIds, hteam, hmatch, hplayer, href] at h
          cases h
          simp [CollState.merge_ids_field, CollState.trackedIds, hteam, hmatch, hplayer, href]
      · rw [CollState.trackedIds, hteam, hmatch, hplayer] at h
        cases h
        simp [CollState.merge_ids_field, CollState.trackedIds, hteam, hmatch, hplayer]
    · rw [CollState.trackedIds, hteam, hmatch] at h
      cases h
      simp [CollState.merge_ids_field, CollState.trackedIds, hteam, hmatch]
  · rw [CollState.trackedIds, hteam] at h
    cases h
    simp [CollState.merge_ids_field, CollState.trackedIds, hteam]

theorem trackedIds_apply_progress (cs : CollState) (fetched : Nat) (total : Option Nat)
    (l old : List Int) (api_calls : Nat) (h : cs.trackedIds = some old) :
    (cs.apply_progress fetched total (some l) api_calls).trackedIds = some (mergeIds old l) := by
  rcases total with _ | t <;> by_cases hap : 0 < api_calls <;>
    simp only [CollState.apply_progress, hap, if_true, if_false] <;>
    exact trackedIds_merge_ids_field _ _ _ h

theorem lookup_update_progress (w : StateWorld) (now c : String) (fetched : Nat)
    (total : Option Nat) (ids : Option (List Int)) (api_calls : Nat) (cs : CollState)
    (h1 : lookupColl w.mem c = some cs) :
    lookupColl (IngestionState.update_collection_progress w now c fetched total ids api_calls).mem c
      = some (cs.apply_progress fetched total ids api_calls) := by
  unfold IngestionState.update_collection_progress
  rw [h1]
  by_cases hap : 0 < api_calls <;>
    simp only [lookupColl, IngestionState.save, IngestionStateData.add_total_api_calls,
      hap, if_true, if_false, setColl] <;>
    exact findColl_setCollList _ _ _ _ h1

/-- C1: for every stage whose ledger entry tracks an ID list and every call
to `update_collection_progress` with a non-None `ids` argument, the stored
ID list afterwards is the sorted, duplicate-free union of the previous list
and the passed ids; hence it is a superset of the old list, and repeating
the same call leaves the list unchanged. -/
theorem C1_update_collection_progress_union (w : StateWorld) (now c : String)
    (fetched : Nat) (total : Option Nat) (l : List Int) (api_calls : Nat)
    (cs : CollState) (old : List Int)
    (h1 : lookupColl w.mem c = some cs) (h2 : cs.trackedIds = some old) :
    ∃ cs2, lookupColl
        (IngestionState.update_collection_progress w now c fetched total (some l) api_calls).mem
        c = some cs2
      ∧ cs2.trackedIds = some (mergeIds old l)
      ∧ (∀ x, x ∈ mergeIds old l ↔ x ∈ old ∨ x ∈ l)
      ∧ (mergeIds old l).Sorted (fun a b => a ≤ b)
      ∧ (mergeIds old l).Nodup
      ∧ (∀ x ∈ old, x ∈ mergeIds old l)
      ∧ ∃ cs3, lookupColl
            (IngestionState.update_collection_progress
              (IngestionState.update_collection_progress w now c fetched total (some l) api_calls)
              now c fetched total (some l) api_calls).mem c = some cs3
          ∧ cs3.trackedIds = some (mergeIds old l) := by
  have e1 := lookup_update_progress w now c fetched total (some l) api_calls cs h1
  have t1 := trackedIds_apply_progress cs fetched total l old api_calls h2
  refine ⟨_, e1, t1, mem_mergeIds old l, mergeIds_sorted old l, mergeIds_nodup old l,
    fun x hx => (mem_mergeIds old l x).mpr (Or.inl hx), ?_⟩
  have e2 := lookup_update_progress _ now c fetched total (some l) api_calls _ e1
  have t2 := trackedIds_apply_progress _ fetched total l (mergeIds old l) api_calls t1
  exact ⟨_, e2, by rw [t2, mergeIds_idem]⟩

/-- A concrete ledger used to instantiate the C1 theorem. -/
def csC1 : CollState := { status := "in_progress", team_ids := some [3, 1] }

def wC1 : StateWorld := { mem := { collections := [("teams", csC1)] } }

/-- Witness for C1 at a concrete ledger and ID list. -/
theorem C1_witness :
    ∃ cs2, lookupColl
        (IngestionState.update_collection_progress wC1 "t" "teams" 2 none (some [2, 1]) 0).mem
        "teams" = some cs2
      ∧ cs2.trackedIds = some (mergeIds [3, 1] [2, 1])
      ∧ (∀ x, x ∈ mergeIds [3, 1] [2, 1] ↔ x ∈ ([3, 1] : List Int) ∨ x ∈ ([2, 1] : List Int))
      ∧ (mergeIds [3, 1] [2, 1]).Sorted (fun a b => a ≤ b)
      ∧ (mergeIds [3, 1] [2, 1]).Nodup
      ∧ (∀ x ∈ ([3, 1] : List Int), x ∈ mergeIds [3, 1] [2, 1])
      ∧ ∃ cs3, lookupColl
            (IngestionState.update_collection_progress
              (IngestionState.update_collection_progress wC1 "t" "teams" 2 none (some [2, 1]) 0)
              "t" "teams" 2 none (some [2, 1]) 0).mem "teams" = some cs3
          ∧ cs3.trackedIds = some (mergeIds [3, 1] [2, 1]) :=
  C1_update_collection_progress_union wC1 "t" "teams" 2 none [2, 1] 0 csC1 [3, 1]
    (by decide) (by decide)

/-- C6: `get_overall_status` returns `complete` iff every stage status is
`complete`; `in_progress` iff some stage is `in_progress` or `complete`
while not all are complete; `not_started` otherwise; and no other value is
ever returned. -/
theorem C6_get_overall_status_cases (m : IngestionStateData) :
    (IngestionState.get_overall_status m = "complete" ↔
      ∀ p ∈ m.collections, p.2.status = "complete")
  ∧ (IngestionState.get_overall_status m = "in_progress" ↔
      ((∃ p ∈ m.collections, p.2.status = "in_progress" ∨ p.2.status = "complete")
        ∧ ¬ ∀ p ∈ m.collections, p.2.status = "complete"))
  ∧ (IngestionState.get_overall_status m = "not_started" ↔
      (¬ (∃ p ∈ m.collections, p.2.status = "in_progress" ∨ p.2.status = "complete")
        ∧ ¬ ∀ p ∈ m.collections, p.2.status = "complete"))
  ∧ (IngestionState.get_overall_status m = "complete" ∨
      IngestionState.get_overall_status m = "in_progress" ∨
      IngestionState.get_overall_status m = "not_started") := by
  have hall : (m.collections.all (fun p => p.2.status == "complete") = true) ↔
      ∀ p ∈ m.collections, p.2.status = "complete" := by
    simp [List.all_eq_true]
  have hany : (m.collections.any
        (fun p => p.2.status == "in_progress" || p.2.status == "complete") = true) ↔
      ∃ p ∈ m.collections, p.2.status = "in_progress" ∨ p.2.status = "complete" := by
    simp [List.any_eq_true]
  unfold IngestionState.get_overall_status
  by_cases hA : m.collections.all (fun p => p.2.status == "complete") = true
  · have h1 := hall.mp hA
    simp only [hA, if_true]
    simp [hA, h1]
    exact ⟨fun a b hm => h1 (a, b) hm,
      fun a b hm _ a2 b2 hm2 => h1 (a2, b2) hm2,
      fun _ a b hm => h1 (a, b) hm⟩
  · have h3 : ¬ ∀ p ∈ m.collections, p.2.status = "complete" := fun hAll => hA (hall.mpr hAll)
    have hex : ∃ a b, (a, b) ∈ m.collections ∧ ¬ b.status = "complete" := by
      push_neg at h3
      obtain ⟨p, hp, hne⟩ := h3
      exact ⟨p.1, p.2, hp, hne⟩
    by_cases hB : m.collections.any
        (fun p => p.2.status == "in_progress" || p.2.status == "complete") = true
    · have h2 := hany.mp hB
      simp [hA, hB, h2, h3]
      exact hex
    · have h4 : ¬ ∃ p ∈ m.collections, p.2.status = "in_progress" ∨ p.2.status = "complete" :=
        fun hEx => hB (hany.mpr hEx)
      simp [hA, hB, h3, h4]
      exact hex

/-- C10: for a stage name that is not a key of the `collections` mapping,
the three mutating operations are no-ops (in-memory and persisted state
unchanged, no save) and `is_collection_complete` returns `false`. -/
theorem C10_unknown_stage_noop (w : StateWorld) (now s : String) (fetched : Nat)
    (total : Option Nat) (ids : Option (List Int)) (api_calls : Nat)
    (h : lookupColl w.mem s = none) :
    IngestionState.mark_collection_in_progress w now s = w
  ∧ IngestionState.mark_collection_complete w now s = w
  ∧ IngestionState.update_collection_progress w now s fetched total ids api_calls = w
  ∧ IngestionState.is_collection_complete w.mem s = false := by
  refine ⟨?_, ?_, ?_, ?_⟩ <;>
    simp [IngestionState.mark_collection_in_progress, IngestionState.mark_collection_complete,
      IngestionState.update_collection_progress, IngestionState.is_collection_complete, h]

/-- Witness for C10 at a concrete ledger and missing stage name. -/
theorem C10_witness :
    IngestionState.mark_collection_in_progress wC1 "t" "missing" = wC1
  ∧ IngestionState.mark_collection_complete wC1 "t" "missing" = wC1
  ∧ IngestionState.update_collection_progress wC1 "t" "missing" 4 (some 9) (some [7]) 2 = wC1
  ∧ IngestionState.is_collection_complete wC1.mem "missing" = false :=
  C10_unknown_stage_noop wC1 "t" "missing" 4 (some 9) (some [7]) 2 (by decide)

/-- In-memory rate-limiter state (rate_limiter.py lines 21-24), with time
modelled as integer seconds; one hour is 3600 seconds. -/
structure RateLimiter where
  requests_per_hour : Nat
  current_hour_start : Option Int
  calls_this_hour : Nat
  deriving Repr, DecidableEq

/-- `RateLimiter.reset_hour` (lines 65-69): restart the quota window at the
current time and zero the counter. -/
def RateLimiter.reset_hour (rl : RateLimiter) (now : Int) : RateLimiter :=
  { rl with current_hour_start := some now, calls_this_hour := 0 }

/-- `RateLimiter.can_make_request` (lines 71-84): reset the window when it
has expired (mutating, hence the returned state), then compare the counter
against the hourly budget. -/
def RateLimiter.can_make_request (rl : RateLimiter) (now : Int) : RateLimiter × Bool :=
  match rl.current_hour_start with
  | none => (rl.reset_hour now, true)
  | some start =>
      if start + 3600 ≤ now then (rl.reset_hour now, true)
      else (rl, decide (rl.calls_this_hour < rl.requests_per_hour))

/-- `RateLimiter.wait_if_needed` (lines 86-110): sleeping is modelled by
returning the advanced clock alongside the new state and the seconds waited.
The `none` inner branch is unreachable because `can_make_request` only
returns `false` when `current_hour_start` is set. -/
def RateLimiter.wait_if_needed (rl : RateLimiter) (now : Int) :
    RateLimiter × Int × Option Int :=
  let cr := rl.can_make_request now
  if cr.2 then (cr.1, now, none)
  else
    match cr.1.current_hour_start with
    | none => (cr.1, now, none)
    | some start =>
        let next_hour := start + 3600
        let wait_seconds := (next_hour - now) + 1
        if 0 < wait_seconds then
          (cr.1.reset_hour (now + wait_seconds), now + wait_seconds, some wait_seconds)
        else (cr.1, now, none)

/-- `RateLimiter.record_request` (lines 112-122). -/
def RateLimiter.record_request (rl : RateLimiter) (now : Int) : RateLimiter :=
  let rl1 := match rl.current_hour_start with
    | none => rl.reset_hour now
    | some start => if start + 3600 ≤ now then rl.reset_hour now else rl
  { rl1 with calls_this_hour := rl1.calls_this_hour + 1 }

/-- C2: for a positive hourly budget, when `wait_if_needed` returns, a
request can legally be made: the counter is strictly below the budget
(either the quota was not exhausted, or the limiter slept past the window
boundary and reset the counter to 0), and `can_make_request` on the
returned state and clock is true — the limit is enforced by blocking,
never by refusing the request. -/
theorem C2_wait_if_needed_allows_request (rl : RateLimiter) (now : Int)
    (h : 0 < rl.requests_per_hour) :
    ((rl.wait_if_needed now).1.calls_this_hour < (rl.wait_if_needed now).1.requests_per_hour)
  ∧ (((rl.wait_if_needed now).1.can_make_request (rl.wait_if_needed now).2.1).2 = true) := by
  rcases hs : rl.current_hour_start with _ | start
  · have hnl : ¬ (now + 3600 ≤ now) := by omega
    simp [RateLimiter.wait_if_needed, RateLimiter.can_make_request, RateLimiter.reset_hour,
      hs, hnl, h]
  · by_cases hexp : start + 3600 ≤ now
    · have hnl : ¬ (now + 3600 ≤ now) := by omega
      simp [RateLimiter.wait_if_needed, RateLimiter.can_make_request, RateLimiter.reset_hour,
        hs, hexp, hnl, h]
    · by_cases hcalls : rl.calls_this_hour < rl.requests_per_hour
      · simp [RateLimiter.wait_if_needed, RateLimiter.can_make_request, RateLimiter.reset_hour,
          hs, hexp, hcalls, h]
      · have hw : 0 < start + 3600 - now + 1 := by omega
        have hnl : ¬ (now + (start + 3600 - now + 1) + 3600 ≤ now + (start + 3600 - now + 1)) := by
          omega
        simp [RateLimiter.wait_if_needed, RateLimiter.can_make_request, RateLimiter.reset_hour,
          hs, hexp, hcalls, hw, hnl, h]

/-- Witness for C2: a limiter with budget 2 that has already recorded 2
calls this hour blocks until the window boundary and then admits a request. -/
theorem C2_witness :
    (0 < (⟨2, some 0, 2⟩ : RateLimiter).requests_per_hour)
  ∧ (((⟨2, some 0, 2⟩ : RateLimiter).wait_if_needed 10).1.calls_this_hour <
        ((⟨2, some 0, 2⟩ : RateLimiter).wait_if_needed 10).1.requests_per_hour)
  ∧ ((((⟨2, some 0, 2⟩ : RateLimiter).wait_if_needed 10).1.can_make_request
        ((⟨2, some 0, 2⟩ : RateLimiter).wait_if_needed 10).2.1).2 = true) :=
  ⟨by decide, (C2_wait_if_needed_allows_request ⟨2, some 0, 2⟩ 10 (by decide)).1,
    (C2_wait_if_needed_allows_request ⟨2, some 0, 2⟩ 10 (by decide)).2⟩

/-- Outcome of one network attempt inside `APIClient.get`
(api_client.py lines 59-103): an HTTP response with a status code and a
JSON body, a timeout, or a connection error. -/
inductive NetResult where
  | httpResponse (code : Nat) (body : String)
  | timeout
  | connError
  deriving Repr, DecidableEq

/-- Observable behaviour of one `APIClient.get` call: the returned value
(`none` models Python `None`), the number of network attempts made, and the
sleeps performed (in seconds, in order). -/
structure GetTrace where
  result : Option String
  attemptsMade : Nat
  sleeps : List Nat
  deriving Repr, DecidableEq

/-- The `for attempt in range(max_retries)` loop of `APIClient.get`
(lines 59-103), recursing on the remaining iterations `rem` so that the
current loop index is `max_retries - rem`.  A 200 returns the body, a 429
sleeps 60 seconds and continues (consuming the iteration), a 403 returns
`None` immediately, and any other status code, timeout or connection error
sleeps `2 ^ attempt` seconds and retries unless this was the last
iteration, in which case `None` is returned.  Falling off the loop returns
`None` (line 103). -/
def APIClient.getLoop (server : Nat → NetResult) (max_retries : Nat) : Nat → GetTrace
  | 0 => ⟨none, 0, []⟩
  | rem + 1 =>
    let attempt := max_retries - (rem + 1)
    match server attempt with
    | .httpResponse code body =>
      if code = 200 then ⟨some body, 1, []⟩
      else if code = 429 then
        let t := APIClient.getLoop server max_retries rem
        ⟨t.result, t.attemptsMade + 1, 60 :: t.sleeps⟩
      else if code = 403 then ⟨none, 1, []⟩
      else
        if 0 < rem then
          let t := APIClient.getLoop server max_retries rem
          ⟨t.result, t.attemptsMade + 1, 2 ^ attempt :: t.sleeps⟩
        else ⟨none, 1, []⟩
    | .timeout =>
        if 0 < rem then
          let t := APIClient.getLoop server max_retries rem
          ⟨t.result, t.attemptsMade + 1, 2 ^ attempt :: t.sleeps⟩
        else ⟨none, 1, []⟩
    | .connError =>
        if 0 < rem then
          let t := APIClient.getLoop server max_retries rem
          ⟨t.result, t.attemptsMade + 1, 2 ^ attempt :: t.sleeps⟩
        else ⟨none, 1, []⟩

/-- `APIClient.get` against a given server behaviour: run the retry loop
with the full budget. -/
def APIClient.get (server : Nat → NetResult) (max_retries : Nat) : GetTrace :=
  APIClient.getLoop server max_retries max_retries

/-- A server that answers HTTP 429 to every request. -/
def server429 : Nat → NetResult := fun _ => NetResult.httpResponse 429 "limited"

/-- A server that answers HTTP 500 to every request. -/
def server500 : Nat → NetResult := fun _ => NetResult.httpResponse 500 "err"

theorem getLoop_server429 (max_retries : Nat) :
    ∀ rem, APIClient.getLoop server429 max_retries rem =
      ⟨none, rem, List.replicate rem 60⟩ := by
  intro rem
  induction rem with
  | zero => rfl
  | succ n ih => simp [APIClient.getLoop, server429, ih, List.replicate]

/-- C3 counterexample: a 429 does consume a retry-budget iteration
(`continue` advances the `for attempt in range(max_retries)` loop), so
against a server that always answers 429, `get` with `max_retries = 3`
makes 3 attempts, sleeps 60 seconds after each, and returns `None` —
refuting the claim that `get` never returns `None` on account of 429
responses alone. -/
theorem C3_counterexample :
    APIClient.get server429 3 = ⟨none, 3, [60, 60, 60]⟩ := by
  simp [APIClient.get, getLoop_server429]

/-- C3 amended: every 429 is handled by sleeping the fixed 60-second
cooldown and then retrying, but each such retry consumes one iteration of
the retry budget, so `max_retries` consecutive 429 responses exhaust the
loop and `get` returns `None` after exactly `max_retries` attempts with a
60-second sleep after each. -/
theorem C3_get_429_cooldown_retry (max_retries : Nat) :
    APIClient.get server429 max_retries =
      ⟨none, max_retries, List.replicate max_retries 60⟩ :=
  getLoop_server429 max_retries max_retries

/-- C5: against a server that always answers HTTP 500,
`get(..., max_retries := 3)` performs exactly 3 network attempts, sleeping
`2 ^ 0` and `2 ^ 1` seconds between them, and then returns `None`; the
embedding is a total function, so no exception is raised. -/
theorem C5_get_500_retry_ceiling :
    APIClient.get server500 3 = ⟨none, 3, [2 ^ 0, 2 ^ 1]⟩ := by
  rfl

/-- The per-league JSON file stores managed by `DataManager`
(data_manager.py).  Entity files are keyed by their integer ID; the
sanitized-name suffix of the real filenames is ignored here because every
`load_*`/`get_all_*_ids` operation matches by ID prefix only.  H2H files
are keyed by their full filename string. -/
structure DataManager where
  teams_dir : List (Int × Doc) := []
  team_lastx_dir : List (Int × Doc) := []
  matches_dir : List (Int × Doc) := []
  match_details_dir : List (Int × Doc) := []
  referees_dir : List (Int × Doc) := []
  h2h_dir : List (String × Doc) := []
  deriving Repr, DecidableEq

/-- `DataManager.save_match` (lines 121-125): stamp `_saved_at` and
overwrite the file. -/
def DataManager.save_match (dm : DataManager) (match_id : Int) (data : Doc)
    (now : String) : DataManager :=
  { dm with matches_dir := storeSet dm.matches_dir match_id (setField data "_saved_at" (.str now)) }

/-- `DataManager.load_match` (lines 127-130). -/
def DataManager.load_match (dm : DataManager) (match_id : Int) : Option Doc :=
  storeGet dm.matches_dir match_id

/-- `DataManager.get_all_match_ids` (lines 132-141): the sorted list of
stored match IDs. -/
def DataManager.get_all_match_ids (dm : DataManager) : List Int :=
  List.insertionSort (fun a b => a ≤ b) (dm.matches_dir.map (fun p => p.1))

/-- `DataManager.save_match_details` (lines 143-147). -/
def DataManager.save_match_details (dm : DataManager) (match_id : Int) (data : Doc)
    (now : String) : DataManager :=
  { dm with match_details_dir :=
      storeSet dm.match_details_dir match_id (setField data "_saved_at" (.str now)) }

/-- `DataManager.get_all_match_detail_ids` (lines 154-166). -/
def DataManager.get_all_match_detail_ids (dm : DataManager) : List Int :=
  List.insertionSort (fun a b => a ≤ b) (dm.match_details_dir.map (fun p => p.1))

/-- `DataManager.save_team` (lines 72-78); the name only contributes the
filename suffix that ID-based lookup ignores. -/
def DataManager.save_team (dm : DataManager) (team_id : Int) (team_name : String)
    (data : Doc) (now : String) : DataManager :=
  { dm with teams_dir := storeSet dm.teams_dir team_id (setField data "_saved_at" (.str now)) }

/-- `DataManager.get_all_team_ids` (lines 88-98). -/
def DataManager.get_all_team_ids (dm : DataManager) : List Int :=
  List.insertionSort (fun a b => a ≤ b) (dm.teams_dir.map (fun p => p.1))

/-- `DataManager.save_referee` (lines 192-197). -/
def DataManager.save_referee (dm : DataManager) (referee_id : Int) (referee_name : String)
    (data : Doc) (now : String) : DataManager :=
  { dm with referees_dir := storeSet dm.referees_dir referee_id (setField data "_saved_at" (.str now)) }

/-- `DataManager.get_all_referee_ids` (lines 205-214). -/
def DataManager.get_all_referee_ids (dm : DataManager) : List Int :=
  List.insertionSort (fun a b => a ≤ b) (dm.referees_dir.map (fun p => p.1))

/-- The H2H filename computed by `save_h2h`/`load_h2h`
(lines 216-233): the two team IDs with the lower one first. -/
def h2h_filename (team_a_id team_b_id : Int) : String :=
  if team_b_id < team_a_id then
    toString team_b_id ++ "_vs_" ++ toString team_a_id ++ ".json"
  else
    toString team_a_id ++ "_vs_" ++ toString team_b_id ++ ".json"

/-- `DataManager.save_h2h` (lines 216-224). -/
def DataManager.save_h2h (dm : DataManager) (team_a_id team_b_id : Int) (data : Doc)
    (now : String) : DataManager :=
  { dm with h2h_dir :=
      storeSet dm.h2h_dir (h2h_filename team_a_id team_b_id) (setField data "_saved_at" (.str now)) }

/-- `DataManager.load_h2h` (lines 226-233). -/
def DataManager.load_h2h (dm : DataManager) (team_a_id team_b_id : Int) : Option Doc :=
  storeGet dm.h2h_dir (h2h_filename team_a_id team_b_id)

theorem h2h_filename_comm (a b : Int) : h2h_filename a b = h2h_filename b a := by
  unfold h2h_filename
  rcases lt_trichotomy a b with hab | hab | hab
  · rw [if_neg (by omega), if_pos hab]
  · subst hab; rfl
  · rw [if_pos hab, if_neg (by omega)]

theorem h2h_filename_sorted (a b : Int) :
    h2h_filename a b = h2h_filename (min a b) (max a b) := by
  unfold h2h_filename
  rcases lt_trichotomy a b with hab | hab | hab
  · rw [if_neg (by omega), if_neg (by omega), min_eq_left (le_of_lt hab),
      max_eq_right (le_of_lt hab)]
  · subst hab; simp
  · rw [if_pos hab, if_neg (by omega), min_eq_right (le_of_lt hab),
      max_eq_left (le_of_lt hab)]

/-- C4: for distinct team IDs, `load_h2h(A, B)` and `load_h2h(B, A)` return
the identical document, `save_h2h(A, B, d)` and `save_h2h(B, A, d)` write
the same single file, and the filename is derived from the two IDs sorted
ascending. -/
theorem C4_h2h_symmetric_key (dm : DataManager) (A B : Int) (d : Doc) (now : String)
    (h : A ≠ B) :
    dm.load_h2h A B = dm.load_h2h B A
  ∧ dm.save_h2h A B d now = dm.save_h2h B A d now
  ∧ h2h_filename A B = h2h_filename B A
  ∧ h2h_filename A B = h2h_filename (min A B) (max A B) := by
  refine ⟨?_, ?_, h2h_filename_comm A B, h2h_filename_sorted A B⟩
  · unfold DataManager.load_h2h
    rw [h2h_filename_comm]
  · unfold DataManager.save_h2h
    rw [h2h_filename_comm]

/-- Witness for C4 at concrete team IDs 5 and 2 on an empty store. -/
theorem C4_witness :
    ((5 : Int) ≠ 2)
  ∧ (DataManager.load_h2h {} 5 2 = DataManager.load_h2h {} 2 5
      ∧ DataManager.save_h2h {} 5 2 [] "t" = DataManager.save_h2h {} 2 5 [] "t"
      ∧ h2h_filename 5 2 = h2h_filename 2 5
      ∧ h2h_filename 5 2 = h2h_filename (min 5 2) (max 5 2)) :=
  ⟨by decide, C4_h2h_symmetric_key {} 5 2 [] "t" (by decide)⟩

/-- A collector's world: the on-disk entity stores and the state ledger
(in-memory plus its persisted file). -/
structure World where
  dm : DataManager
  st : StateWorld
  deriving Repr, DecidableEq

/-- Response of a paged list endpoint as the collectors consume it:
`response.get('success')`, `response.get('data', [])` and
`response.get('pager', {}).get('max_page', 1)`.  A `none` response models
Python `None` from `APIClient.get`. -/
structure PageResp where
  success : Bool
  data : List Doc
  max_page : Nat := 1
  deriving Repr, DecidableEq

/-- Response of the single-entity `match` endpoint: `success` and the
`data` document. -/
structure DetailResp where
  success : Bool
  data : Doc
  deriving Repr, DecidableEq

/-- Python truthiness of a JSON scalar (empty string and zero are falsy). -/
def jval_truthy : JVal → Bool
  | .str s => !s.isEmpty
  | .int i => decide (i ≠ 0)

/-- Render a JSON scalar as a display string (as an f-string would). -/
def jval_display : JVal → String
  | .str s => s
  | .int i => toString i

/-- The `id` field of a record, when it is an integer.  A record without an
integer `id` would make the Python crash later (`sorted()` over a set
containing `None`), so the embedding skips such records and the theorems
quantify over well-formed data. -/
def docId (d : Doc) : Option Int :=
  match lookupField d "id" with
  | some (.int i) => some i
  | _ => none

/-- The `for field in [...]` candidate-name loop shared by the name
extractors of utils.py: first present and truthy field wins. -/
def pickNameField (d : Doc) : List String → Option String
  | [] => none
  | f :: rest =>
    match lookupField d f with
    | some v => if jval_truthy v then some (jval_display v) else pickNameField d rest
    | none => pickNameField d rest

/-- `get_team_name_from_data` (utils.py lines 126-141). -/
def get_team_name_from_data (d : Doc) : String :=
  match pickNameField d ["name", "cleanName", "full_name", "english_name"] with
  | some n => n
  | none =>
    "Team_" ++ (match lookupField d "id" with | some v => jval_display v | none => "Unknown")

/-- `get_referee_name_from_data` (utils.py lines 162-177). -/
def get_referee_name_from_data (d : Doc) : String :=
  match pickNameField d ["known_as", "full_name", "first_name"] with
  | some n => n
  | none =>
    "Referee_" ++ (match lookupField d "id" with | some v => jval_display v | none => "Unknown")

/-- Loop state of `TeamCollector.collect_league_teams`
(team_collector.py lines 37-44). -/
structure TCAcc where
  dm : DataManager
  st : StateWorld
  all_teams : List Doc
  already : List Int
  page : Nat
  api_calls : Nat
  deriving Repr, DecidableEq

/-- Per-team body of the `for team in new_teams` loop
(team_collector.py lines 66-74): save the team and record its ID. -/
def TeamCollector.process_team (now : String) (acc : TCAcc) (t : Doc) : TCAcc :=
  match docId t with
  | none => acc
  | some team_id =>
    let team_name := get_team_name_from_data t
    { acc with dm := acc.dm.save_team team_id team_name t now,
               all_teams := acc.all_teams ++ [t],
               already := if acc.already.contains team_id then acc.already
                          else acc.already ++ [team_id] }

/-- The `while True` paging loop of `collect_league_teams`
(team_collector.py lines 46-91), with explicit fuel; the real loop is
unbounded, so theorems run it with sufficient fuel. -/
def TeamCollector.pages_loop (api : Nat → Option PageResp) (now : String) :
    Nat → TCAcc → TCAcc
  | 0, s => s
  | fuel + 1, s =>
    let r := api s.page
    let s1 := { s with api_calls := s.api_calls + 1 }
    match r with
    | none => s1
    | some resp =>
      if !resp.success then s1
      else if resp.data.isEmpty then s1
      else
        let new_teams := resp.data.filter (fun t =>
          match docId t with
          | some i => !s1.already.contains i
          | none => true)
        let s2 := new_teams.foldl (TeamCollector.process_team now) s1
        let team_ids := s2.all_teams.filterMap docId
        let st2 := IngestionState.update_collection_progress s2.st now "teams"
            s2.already.length (some s2.already.length) (some team_ids) s2.api_calls
        let s3 := { s2 with st := st2 }
        if resp.max_page ≤ s3.page then s3
        else TeamCollector.pages_loop api now fuel { s3 with page := s3.page + 1 }

/-- `TeamCollector.collect_league_teams` (team_collector.py lines 22-99):
returns the success flag, the final world, and the number of API calls
made. -/
def TeamCollector.collect_league_teams (api : Nat → Option PageResp) (w : World)
    (now : String) (fuel : Nat) : Bool × World × Nat :=
  if IngestionState.is_collection_complete w.st.mem "teams" then (true, w, 0)
  else
    let st1 := IngestionState.mark_collection_in_progress w.st now "teams"
    let existing_team_ids := (lookupColl st1.mem "teams").elim [] (fun cs => cs.team_ids.getD [])
    let existing_from_disk := w.dm.get_all_team_ids
    let already0 := (existing_team_ids ++ existing_from_disk).dedup
    let res := TeamCollector.pages_loop api now fuel ⟨w.dm, st1, [], already0, 1, 0⟩
    if !res.all_teams.isEmpty || !res.already.isEmpty then
      (true, ⟨res.dm, IngestionState.mark_collection_complete res.st now "teams"⟩, res.api_calls)
    else (false, ⟨res.dm, res.st⟩, res.api_calls)

/-- `RefereeCollector.collect_league_referees`
(referee_collector.py lines 22-81): a single non-paged fetch. -/
def RefereeCollector.collect_league_referees (api : Option PageResp) (w : World)
    (now : String) : Bool × World × Nat :=
  if IngestionState.is_collection_complete w.st.mem "referees" then (true, w, 0)
  else
    let st1 := IngestionState.mark_collection_in_progress w.st now "referees"
    let existing_referee_ids :=
      (lookupColl st1.mem "referees").elim [] (fun cs => cs.referee_ids.getD [])
    let existing_from_disk := w.dm.get_all_referee_ids
    let already0 := (existing_referee_ids ++ existing_from_disk).dedup
    match api with
    | none => (false, ⟨w.dm, st1⟩, 1)
    | some r =>
      if !r.success then (false, ⟨w.dm, st1⟩, 1)
      else if r.data.isEmpty then (false, ⟨w.dm, st1⟩, 1)
      else
        let new_referees := r.data.filter (fun d =>
          match docId d with
          | some i => !already0.contains i
          | none => true)
        let step := fun (acc : DataManager × List Int) (d : Doc) =>
          match docId d with
          | none => acc
          | some referee_id =>
            let referee_name := get_referee_name_from_data d
            (acc.1.save_referee referee_id referee_name d now,
             if acc.2.contains referee_id then acc.2 else acc.2 ++ [referee_id])
        let res := new_referees.foldl step (w.dm, already0)
        let st2 := IngestionState.update_collection_progress st1 now "referees"
            res.2.length (some res.2.length) (some res.2) 1
        (true, ⟨res.1, IngestionState.mark_collection_complete st2 now "referees"⟩, 1)

/-- C9: if the teams (resp. referees) stage is already marked complete in
the ledger, `collect_league_teams` (resp. `collect_league_referees`)
returns `True` immediately, making zero API calls and leaving the store
and the ledger (memory and disk) entirely unchanged. -/
theorem C9_once_only_stages (api_t : Nat → Option PageResp) (api_r : Option PageResp)
    (w : World) (now : String) (fuel : Nat) :
    (IngestionState.is_collection_complete w.st.mem "teams" = true →
      TeamCollector.collect_league_teams api_t w now fuel = (true, w, 0))
  ∧ (IngestionState.is_collection_complete w.st.mem "referees" = true →
      RefereeCollector.collect_league_referees api_r w now = (true, w, 0)) := by
  constructor <;> intro h
  · simp [TeamCollector.collect_league_teams, h]
  · simp [RefereeCollector.collect_league_referees, h]

/-- A world whose teams and referees stages are already complete. -/
def wC9 : World :=
  ⟨{}, { mem := { collections :=
      [("teams", { status := "complete", team_ids := some [] }),
       ("referees", { status := "complete", referee_ids := some [] })] } }⟩

/-- Witness for C9 at a concrete completed world. -/
theorem C9_witness :
    (IngestionState.is_collection_complete wC9.st.mem "teams" = true
      ∧ TeamCollector.collect_league_teams (fun _ => none) wC9 "t" 3 = (true, wC9, 0))
  ∧ (IngestionState.is_collection_complete wC9.st.mem "referees" = true
      ∧ RefereeCollector.collect_league_referees none wC9 "t" = (true, wC9, 0)) :=
  ⟨⟨by decide, (C9_once_only_stages (fun _ => none) none wC9 "t" 3).1 (by decide)⟩,
   ⟨by decide, (C9_once_only_stages (fun _ => none) none wC9 "t" 3).2 (by decide)⟩⟩

/-- The `match and match.get('status') == 'complete'` test of
match_details_collector.py lines 46-49. -/
def matchIsComplete (dm : DataManager) (mid : Int) : Bool :=
  match dm.load_match mid with
  | some m => lookupField m "status" == some (.str "complete")
  | none => false

/-- The `match_ids` list a stage tracks in the ledger, with Python's
`.get(stage, \x7b\x7d).get('match_ids', [])` defaults. -/
def ledger_stage_match_ids (st : StateWorld) (c : String) : List Int :=
  (lookupColl st.mem c).elim [] (fun cs => cs.match_ids.getD [])

/-- Completed-match worklist source: all stored match IDs whose record has
`status == 'complete'` (match_details_collector.py lines 44-49). -/
def MatchDetailsCollector.completed_ids (dm : DataManager) : List Int :=
  dm.get_all_match_ids.filter (fun mid => matchIsComplete dm mid)

/-- Loop state of `collect_match_details` (lines 73-108): the stores, the
ledger, the `already_fetched` set, counters, and the trace of match IDs
actually requested from the API. -/
structure MDAcc where
  dm : DataManager
  st : StateWorld
  already : List Int
  fetched_count : Nat
  api_calls : Nat
  fetchedTrace : List Int
  deriving Repr, DecidableEq

/-- Body of the `for idx, match_id in enumerate(matches_to_fetch)` loop
(lines 76-108): skip when the stored match no longer loads truthy,
otherwise fetch the details (recorded in `fetchedTrace`), save them on
success, and checkpoint the ledger every 10 API calls. -/
def MatchDetailsCollector.fetch_step (api : Int → Option DetailResp) (now : String)
    (completed_total : Nat) (acc : MDAcc) (mid : Int) : MDAcc :=
  match acc.dm.load_match mid with
  | none => acc
  | some m =>
    if m.isEmpty then acc
    else
      let resp := api mid
      let acc1 := { acc with api_calls := acc.api_calls + 1,
                             fetchedTrace := acc.fetchedTrace ++ [mid] }
      let acc2 := match resp with
        | none => acc1
        | some r =>
          if r.success then
            if r.data.isEmpty then acc1
            else { acc1 with dm := acc1.dm.save_match_details mid r.data now,
                             fetched_count := acc1.fetched_count + 1,
                             already := if acc1.already.contains mid then acc1.already
                                        else acc1.already ++ [mid] }
          else acc1
      if acc2.api_calls % 10 == 0 then
        let st2 := IngestionState.update_collection_progress acc2.st now "match_details"
            acc2.fetched_count (some completed_total) (some acc2.already) acc2.api_calls
        { acc2 with st := st2 }
      else acc2

/-- `MatchDetailsCollector.collect_match_details` (lines 22-121): returns
the success flag, the final world, and the list of match IDs fetched from
the API. -/
def MatchDetailsCollector.collect_match_details (api : Int → Option DetailResp)
    (w : World) (now : String) : Bool × World × List Int :=
  let st1 := IngestionState.mark_collection_in_progress w.st now "match_details"
  let all_match_ids := w.dm.get_all_match_ids
  if all_match_ids.isEmpty then (false, ⟨w.dm, st1⟩, [])
  else
    let completed_match_ids := MatchDetailsCollector.completed_ids w.dm
    if completed_match_ids.isEmpty then
      (true, ⟨w.dm, IngestionState.mark_collection_complete st1 now "match_details"⟩, [])
    else
      let already0 :=
        (ledger_stage_match_ids st1 "match_details" ++ w.dm.get_all_match_detail_ids).dedup
      let matches_to_fetch := completed_match_ids.filter (fun mid => !already0.contains mid)
      if matches_to_fetch.isEmpty then
        (true, ⟨w.dm, IngestionState.mark_collection_complete st1 now "match_details"⟩, [])
      else
        let init : MDAcc := ⟨w.dm, st1, already0, already0.length, 0, []⟩
        let acc := matches_to_fetch.foldl
            (MatchDetailsCollector.fetch_step api now completed_match_ids.length) init
        let st2 := IngestionState.update_collection_progress acc.st now "match_details"
            acc.fetched_count (some completed_match_ids.length) (some acc.already) acc.api_calls
        (true, ⟨acc.dm, IngestionState.mark_collection_complete st2 now "match_details"⟩,
          acc.fetchedTrace)

theorem fetch_step_matches_dir (api : Int → Option DetailResp) (now : String) (L : Nat)
    (acc : MDAcc) (mid : Int) :
    (MatchDetailsCollector.fetch_step api now L acc mid).dm.matches_dir
      = acc.dm.matches_dir := by
  unfold MatchDetailsCollector.fetch_step
  rcases hload : acc.dm.load_match mid with _ | m
  · simp [hload]
  · simp only [hload]
    rcases hapi : api mid with _ | r <;> simp only [hapi] <;> split_ifs <;> rfl

theorem fetch_step_trace (api : Int → Option DetailResp) (now : String) (L : Nat)
    (acc : MDAcc) (mid : Int) (m : Doc) (hload : acc.dm.load_match mid = some m)
    (hne : m.isEmpty = false) :
    (MatchDetailsCollector.fetch_step api now L acc mid).fetchedTrace
      = acc.fetchedTrace ++ [mid] := by
  unfold MatchDetailsCollector.fetch_step
  simp only [hload, hne, Bool.false_eq_true, if_false]
  rcases hapi : api mid with _ | r <;> simp only [hapi] <;> split_ifs <;>
    first
    | rfl
    | simp_all

theorem md_fold_matches_dir (api : Int → Option DetailResp) (now : String) (L : Nat)
    (l : List Int) (acc : MDAcc) :
    ((l.foldl (MatchDetailsCollector.fetch_step api now L) acc).dm.matches_dir)
      = acc.dm.matches_dir := by
  induction l generalizing acc with
  | nil => rfl
  | cons x xs ih => rw [List.foldl_cons, ih, fetch_step_matches_dir]

theorem md_fold_trace (api : Int → Option DetailResp) (now : String) (L : Nat)
    (l : List Int) (acc : MDAcc)
    (h : ∀ mid ∈ l, ∃ m, acc.dm.load_match mid = some m ∧ m.isEmpty = false) :
    ((l.foldl (MatchDetailsCollector.fetch_step api now L) acc).fetchedTrace)
      = acc.fetchedTrace ++ l := by
  induction l generalizing acc with
  | nil => simp
  | cons x xs ih =>
    obtain ⟨m, hm, hne⟩ := h x (List.mem_cons_self x xs)
    rw [List.foldl_cons, ih]
    · rw [fetch_step_trace api now L acc x m hm hne]
      simp
    · intro mid hmid
      obtain ⟨m2, hm2, hne2⟩ := h mid (List.mem_cons_of_mem _ hmid)
      refine ⟨m2, ?_, hne2⟩
      simp only [DataManager.load_match] at hm2 ⊢
      rw [fetch_step_matches_dir]
      exact hm2

theorem matchIsComplete_load (dm : DataManager) (mid : Int)
    (h : matchIsComplete dm mid = true) :
    ∃ m, dm.load_match mid = some m ∧ m.isEmpty = false := by
  unfold matchIsComplete at h
  rcases hm : dm.load_match mid with _ | m
  · rw [hm] at h
    cases h
  · rw [hm] at h
    refine ⟨m, rfl, ?_⟩
    rcases m with _ | ⟨p, t⟩
    · simp [lookupField] at h
    · rfl

theorem ledger_match_ids_mark_in_progress (w : StateWorld) (now c : String) :
    ledger_stage_match_ids (IngestionState.mark_collection_in_progress w now c) c
      = ledger_stage_match_ids w c := by
  unfold IngestionState.mark_collection_in_progress ledger_stage_match_ids
  rcases h : lookupColl w.mem c with _ | cs
  · simp [h]
  · have h2 := findColl_setCollList w.mem.collections c cs
      { cs with status := "in_progress" } h
    simp [h, IngestionState.save, lookupColl, setColl, h2]

theorem contains_false_iff (l : List Int) (a : Int) : (l.contains a = false) ↔ ¬ a ∈ l := by
  simp

theorem collect_match_details_trace (api : Int → Option DetailResp) (w : World)
    (now : String) :
    (MatchDetailsCollector.collect_match_details api w now).2.2
      = (MatchDetailsCollector.completed_ids w.dm).filter
          (fun mid => !((ledger_stage_match_ids w.st "match_details"
              ++ w.dm.get_all_match_detail_ids).dedup.contains mid)) := by
  simp only [MatchDetailsCollector.collect_match_details]
  rw [ledger_match_ids_mark_in_progress]
  split_ifs with h1 h2 h3
  · simp [MatchDetailsCollector.completed_ids, List.isEmpty_iff.mp h1]
  · simp [List.isEmpty_iff.mp h2]
  · exact (List.isEmpty_iff.mp h3).symm
  · rw [md_fold_trace]
    · simp
    · intro mid2 hmid2
      have hc : mid2 ∈ MatchDetailsCollector.completed_ids w.dm :=
        (List.mem_filter.mp hmid2).1
      exact matchIsComplete_load w.dm mid2 (List.mem_filter.mp hc).2

/-- C7: the set of match IDs that `collect_match_details` fetches from the
API is exactly the set of match IDs on disk whose stored record has
`status == 'complete'`, minus those already present in the ledger's
`match_details` ID list or already stored as match-detail files. -/
theorem C7_match_details_worklist (api : Int → Option DetailResp) (w : World)
    (now : String) (mid : Int) :
    mid ∈ (MatchDetailsCollector.collect_match_details api w now).2.2 ↔
      (mid ∈ w.dm.get_all_match_ids ∧ matchIsComplete w.dm mid = true
        ∧ ¬ mid ∈ ledger_stage_match_ids w.st "match_details"
        ∧ ¬ mid ∈ w.dm.get_all_match_detail_ids) := by
  rw [collect_match_details_trace]
  simp only [MatchDetailsCollector.completed_ids, List.mem_filter, Bool.not_eq_true',
    contains_false_iff, List.mem_dedup, List.mem_append]
  tauto

/-- `DataManager._save_json` (data_manager.py lines 259-265) catches any
write error, prints it, and returns normally, so the caller cannot observe
the failure.  `save_ok` says which writes physically succeed; a failed
write leaves the store unchanged. -/
def DataManager.save_match_try (dm : DataManager) (save_ok : Int → Bool)
    (match_id : Int) (data : Doc) (now : String) : DataManager :=
  if save_ok match_id then dm.save_match match_id data now else dm

/-- Loop state of `MatchCollector.collect_league_matches`
(match_collector.py lines 36-43). -/
structure MCAcc where
  dm : DataManager
  st : StateWorld
  all_match_ids : List Int
  new_count : Nat
  updated_count : Nat
  page : Nat
  api_calls : Nat
  deriving Repr, DecidableEq

/-- Body of the `for match in data` loop (match_collector.py lines 62-73):
count new vs updated, always save (whether or not the write succeeds), and
add the ID to `all_match_ids` unconditionally. -/
def MatchCollector.process_match (save_ok : Int → Bool) (now : String)
    (existing_from_disk : List Int) (acc : MCAcc) (m : Doc) : MCAcc :=
  match docId m with
  | none => acc
  | some match_id =>
    let acc1 := if existing_from_disk.contains match_id then
        { acc with updated_count := acc.updated_count + 1 }
      else
        { acc with new_count := acc.new_count + 1 }
    { acc1 with dm := acc1.dm.save_match_try save_ok match_id m now,
                all_match_ids := if acc1.all_match_ids.contains match_id then acc1.all_match_ids
                                 else acc1.all_match_ids ++ [match_id] }

/-- The `while True` paging loop of `collect_league_matches`
(match_collector.py lines 45-93), with explicit fuel. -/
def MatchCollector.pages_loop (api : Nat → Option PageResp) (save_ok : Int → Bool)
    (now : String) (existing_from_disk : List Int) : Nat → MCAcc → MCAcc
  | 0, s => s
  | fuel + 1, s =>
    let r := api s.page
    let s1 := { s with api_calls := s.api_calls + 1 }
    match r with
    | none => s1
    | some resp =>
      if !resp.success then s1
      else if resp.data.isEmpty then s1
      else
        let s2 := resp.data.foldl
            (MatchCollector.process_match save_ok now existing_from_disk) s1
        let fetched_total := (s2.all_match_ids ++ existing_from_disk).dedup.length
        let st2 := IngestionState.update_collection_progress s2.st now "matches"
            fetched_total (some fetched_total) (some s2.all_match_ids) s2.api_calls
        let s3 := { s2 with st := st2 }
        if resp.max_page ≤ s3.page then s3
        else MatchCollector.pages_loop api save_ok now existing_from_disk fuel
            { s3 with page := s3.page + 1 }

/-- `MatchCollector.collect_league_matches` (match_collector.py lines
21-107), parametrised by which disk writes succeed. -/
def MatchCollector.collect_league_matches (api : Nat → Option PageResp)
    (save_ok : Int → Bool) (w : World) (now : String) (fuel : Nat) : Bool × World :=
  let st1 := IngestionState.mark_collection_in_progress w.st now "matches"
  let existing_from_disk := w.dm.get_all_match_ids
  let res := MatchCollector.pages_loop api save_ok now existing_from_disk fuel
      ⟨w.dm, st1, [], 0, 0, 1, 0⟩
  let total_matches := (res.all_match_ids ++ existing_from_disk).dedup.length
  if 0 < res.new_count || 0 < res.updated_count then
    (true, ⟨res.dm, IngestionState.mark_collection_complete res.st now "matches"⟩)
  else if 0 < total_matches then
    (true, ⟨res.dm, IngestionState.mark_collection_complete res.st now "matches"⟩)
  else
    (false, ⟨res.dm, res.st⟩)

/-- A server whose single page contains one match, ID 1, not yet complete. -/
def api_c8 : Nat → Option PageResp := fun p =>
  if p == 1 then
    some { success := true, data := [[("id", JVal.int 1), ("status", JVal.str "incomplete")]] }
  else none

/-- Disk behaviour under which the write of match 1 fails. -/
def save_fail_1 : Int → Bool := fun match_id => !(match_id == 1)

/-- A fresh world whose matches stage tracks an empty ID list. -/
def w_c8 : World :=
  ⟨{}, { mem := { collections := [("matches", { status := "pending", match_ids := some [] })] } }⟩

/-- C8 counterexample: when the write of match 1 fails (swallowed inside
`_save_json`), the collector still records ID 1 in the ledger, even though
no file for match 1 exists in the store. -/
theorem C8_counterexample :
    ledger_stage_match_ids
        (MatchCollector.collect_league_matches api_c8 save_fail_1 w_c8 "t" 3).2.st "matches"
      = [1]
  ∧ storeGet
        (MatchCollector.collect_league_matches api_c8 save_fail_1 w_c8 "t" 3).2.dm.matches_dir 1
      = none
  ∧ (MatchCollector.collect_league_matches api_c8 save_fail_1 w_c8 "t" 3).1 = true := by
  decide

theorem ledger_match_ids_mark_complete (w : StateWorld) (now c : String) :
    ledger_stage_match_ids (IngestionState.mark_collection_complete w now c) c
      = ledger_stage_match_ids w c := by
  unfold IngestionState.mark_collection_complete ledger_stage_match_ids
  rcases h : lookupColl w.mem c with _ | cs
  · simp [h]
  · have h2 := findColl_setCollList w.mem.collections c cs
      { cs with status := "complete", last_updated := some now } h
    simp [h, IngestionState.save, lookupColl, setColl, h2]

/-- One-page API data: one record per ID. -/
def match_docs_of (ids : List Int) : List Doc :=
  ids.map (fun i => [("id", JVal.int i)])

/-- A server whose page 1 succeeds with the given records and reports
`max_page = 1`; all other pages fail. -/
def api_page1 (ids : List Int) : Nat → Option PageResp := fun p =>
  if p == 1 then some { success := true, data := match_docs_of ids } else none

theorem mc_fold_char (save_ok : Int → Bool) (now : String) (ids : List Int) :
    ∀ acc : MCAcc,
      ((match_docs_of ids).foldl (MatchCollector.process_match save_ok now []) acc).st = acc.st
    ∧ ((match_docs_of ids).foldl (MatchCollector.process_match save_ok now []) acc).page = acc.page
    ∧ ((match_docs_of ids).foldl (MatchCollector.process_match save_ok now []) acc).api_calls
        = acc.api_calls
    ∧ ((match_docs_of ids).foldl (MatchCollector.process_match save_ok now []) acc).new_count
        = acc.new_count + ids.length
    ∧ (∀ x, x ∈ ((match_docs_of ids).foldl
            (MatchCollector.process_match save_ok now []) acc).all_match_ids
        ↔ x ∈ acc.all_match_ids ∨ x ∈ ids) := by
  induction ids with
  | nil =>
    intro acc
    simp [match_docs_of]
  | cons i rest ih =>
    intro acc
    simp only [match_docs_of, List.map_cons, List.foldl_cons]
    have hstep : MatchCollector.process_match save_ok now [] acc [("id", JVal.int i)]
        = { acc with dm := acc.dm.save_match_try save_ok i [("id", JVal.int i)] now,
                     new_count := acc.new_count + 1,
                     all_match_ids := if acc.all_match_ids.contains i then acc.all_match_ids
                                      else acc.all_match_ids ++ [i] } := rfl
    rw [hstep]
    obtain ⟨h1, h2, h3, h4, h5⟩ := ih
      { acc with dm := acc.dm.save_match_try save_ok i [("id", JVal.int i)] now,
                 new_count := acc.new_count + 1,
                 all_match_ids := if acc.all_match_ids.contains i then acc.all_match_ids
                                  else acc.all_match_ids ++ [i] }
    have hmdo : (match_docs_of rest) = rest.map (fun j => [("id", JVal.int j)]) := rfl
    rw [hmdo] at h1 h2 h3 h4 h5
    refine ⟨h1, h2, h3, ?_, ?_⟩
    · rw [h4]
      simp only [List.length_cons]
      omega
    · intro x
      rw [h5 x]
      by_cases hc : acc.all_match_ids.contains i = true
      · have hi : i ∈ acc.all_match_ids := by simpa using hc
        rw [if_pos hc]
        simp only [List.mem_cons]
        constructor
        · rintro (h | h)
          · exact Or.inl h
          · exact Or.inr (Or.inr h)
        · rintro (h | h | h)
          · exact Or.inl h
          · exact Or.inl (h ▸ hi)
          · exact Or.inr h
      · rw [if_neg hc]
        simp only [List.mem_append, List.mem_singleton, List.mem_cons]
        tauto

theorem pages_loop_page1_char (save_ok : Int → Bool) (ids : List Int) (st1 : StateWorld)
    (fuel : Nat) (hids : ids ≠ []) :
    ∃ l : List Int,
      (∀ x, x ∈ l ↔ x ∈ ids)
    ∧ (MatchCollector.pages_loop (api_page1 ids) save_ok "t" [] (fuel + 1)
          ⟨w_c8.dm, st1, [], 0, 0, 1, 0⟩).new_count = ids.length
    ∧ ∃ ft, (MatchCollector.pages_loop (api_page1 ids) save_ok "t" [] (fuel + 1)
          ⟨w_c8.dm, st1, [], 0, 0, 1, 0⟩).st
        = IngestionState.update_collection_progress st1 "t" "matches" ft (some ft)
            (some l) 1 := by
  have hdata : (match_docs_of ids).isEmpty = false := by
    cases h : (match_docs_of ids).isEmpty
    · rfl
    · exact absurd (List.map_eq_nil.mp (List.isEmpty_iff.mp h)) hids
  obtain ⟨hfst, hfpage, hfapi, hfnew, hfmem⟩ :=
    mc_fold_char save_ok "t" ids ⟨w_c8.dm, st1, [], 0, 0, 1, 1⟩
  have hloop : MatchCollector.pages_loop (api_page1 ids) save_ok "t" [] (fuel + 1)
        ⟨w_c8.dm, st1, [], 0, 0, 1, 0⟩
      = (let s2 := (match_docs_of ids).foldl (MatchCollector.process_match save_ok "t" [])
            ⟨w_c8.dm, st1, [], 0, 0, 1, 1⟩;
         let ft := (s2.all_match_ids ++ []).dedup.length;
         let st2 := IngestionState.update_collection_progress s2.st "t" "matches"
             ft (some ft) (some s2.all_match_ids) s2.api_calls;
         { s2 with st := st2 }) := by
    conv_lhs => rw [MatchCollector.pages_loop]
    simp [api_page1, hdata]
    intro hcontra
    rw [hfpage] at hcontra
    simp at hcontra
  rw [hloop]
  simp only []
  refine ⟨((match_docs_of ids).foldl (MatchCollector.process_match save_ok "t" [])
      ⟨w_c8.dm, st1, [], 0, 0, 1, 1⟩).all_match_ids, ?_, ?_, ?_⟩
  · intro x
    rw [hfmem x]
    simp
  · rw [hfnew]
    simp
  · refine ⟨(((match_docs_of ids).foldl (MatchCollector.process_match save_ok "t" [])
      ⟨w_c8.dm, st1, [], 0, 0, 1, 1⟩).all_match_ids ++ []).dedup.length, ?_⟩
    rw [hfst, hfapi]

/-- C8 amended: the collector records every ID returned by the API in the
ledger regardless of which saves succeed — `_save_json` swallows write
errors, so an ID tracked in the ledger need not correspond to an entity
whose save succeeded. -/
theorem C8_ledger_ids_independent_of_save (save_ok : Int → Bool) (ids : List Int)
    (fuel : Nat) (mid : Int) :
    mid ∈ ledger_stage_match_ids
        (MatchCollector.collect_league_matches (api_page1 ids) save_ok w_c8 "t" (fuel + 1)).2.st
        "matches"
      ↔ mid ∈ ids := by
  by_cases hids : ids = []
  · subst hids
    exact Iff.rfl
  · have hlen : 0 < ids.length := List.length_pos.mpr hids
    obtain ⟨l, hl, hnew, ft, hst⟩ := pages_loop_page1_char save_ok ids
      (IngestionState.mark_collection_in_progress w_c8.st "t" "matches") fuel hids
    simp only [MatchCollector.collect_league_matches]
    have hefd : w_c8.dm.get_all_match_ids = [] := rfl
    rw [hefd]
    rw [hnew]
    rw [if_pos (by simp [hlen])]
    simp only [ledger_match_ids_mark_complete]
    rw [hst]
    have hlk : lookupColl
        (IngestionState.mark_collection_in_progress w_c8.st "t" "matches").mem "matches"
        = some ⟨"in_progress", 0, 0, none, some [], none, none, 0, none⟩ := rfl
    have hupd := lookup_update_progress
      (IngestionState.mark_collection_in_progress w_c8.st "t" "matches") "t" "matches"
      ft (some ft) (some l) 1 _ hlk
    unfold ledger_stage_match_ids
    rw [hupd]
    have happ : ((⟨"in_progress", 0, 0, none, some [], none, none, 0, none⟩ :
          CollState).apply_progress ft (some ft) (some l) 1).match_ids
        = some (mergeIds [] l) := rfl
    simp only [Option.elim, happ, Option.getD]
    simp [mem_mergeIds, hl mid]
